import Mathlib

/-!
Shallow embedding of the insurance-estimate pipeline
(`src/Insurance.app.py`): column resolution, row normalization,
keyword categorization, delegation by category rules, and payment /
total aggregation.  Machine reals (Python floats on the currency
amounts that occur here, which are short decimal numerals) are
modelled as exact rationals; Python dictionaries as association lists
or `Option`-valued lookup functions.
-/

namespace InsuranceApp

/-! ### Substring containment (Python `needle in hay`) -/

/-- `needleLeads needle hay` holds when `needle` occurs at the very start of
`hay` (Boolean, over character lists). -/
def needleLeads : List Char → List Char → Bool
  | [], _ => true
  | _ :: _, [] => false
  | a :: as, b :: bs => a == b && needleLeads as bs

/-- Python's `needle in hay` substring test over character lists. -/
def containsSub (needle : List Char) : List Char → Bool
  | [] => needle.isEmpty
  | b :: bs => needleLeads needle (b :: bs) || containsSub needle bs

/-- Python's `needle in hay` substring test on strings. -/
def strContains (hay needle : String) : Bool :=
  containsSub needle.toList hay.toList

/-- Python's `str.lower()` (character-wise lower-casing; the inputs here are
ASCII, where Lean's `Char.toLower` and Python's lower-casing agree). -/
def lowerStr (s : String) : String :=
  String.mk (s.toList.map Char.toLower)

/-- Python's `str.strip()`: remove leading and trailing whitespace. -/
def trimChars (l : List Char) : List Char :=
  ((l.dropWhile Char.isWhitespace).reverse.dropWhile Char.isWhitespace).reverse

/-! ### Currency stripping and numeric parsing (line 93 of the source)

`all_tasks['total'] = pd.to_numeric(
    all_tasks['total'].astype(str).str.replace(r'[\$,]', '', regex=True),
    errors='coerce')`
-/

/-- Strip the currency symbol `$` and thousands separator `,` from a cell,
embedding the regex replacement `[\$,]` → `''`. -/
def stripCurrency (s : String) : String :=
  String.mk (s.toList.filter (fun c => !(c == '$' || c == ',')))

/-- Value of a digit string, most significant first. -/
def parseDigits (l : List Char) : Nat :=
  l.foldl (fun a c => a * 10 + (c.toNat - 48)) 0

/-- Parse an unsigned decimal numeral (`1234`, `1234.50`, `.5`, `12.`),
returning `none` on any other shape.  This embeds the acceptance of
`pd.to_numeric(..., errors='coerce')` on the unsigned part of a plain
decimal numeral; `none` is pandas' `NaN` coercion for unparsable text. -/
def parseUnsigned (l : List Char) : Option ℚ :=
  let ip := l.takeWhile Char.isDigit
  match l.dropWhile Char.isDigit with
  | [] => if ip.isEmpty then none else some (parseDigits ip)
  | '.' :: frac =>
      if frac.all Char.isDigit && !(ip.isEmpty && frac.isEmpty) then
        some ((parseDigits ip : ℚ) + (parseDigits frac : ℚ) / (10 : ℚ) ^ frac.length)
      else none
  | _ => none

/-- Parse an optionally signed numeral: a leading `-` negates the unsigned
value, a leading `+` is dropped, anything else is parsed unsigned (the empty
string fails). -/
def parseSigned : List Char → Option ℚ
  | [] => none
  | c :: rest =>
      if c = '-' then (parseUnsigned rest).map (fun q => -q)
      else if c = '+' then parseUnsigned rest
      else parseUnsigned (c :: rest)

/-- Parse a signed decimal numeral as `pd.to_numeric(..., errors='coerce')`
does on a currency-stripped cell: `none` models the `NaN` produced for
non-numeric text. -/
def parseNum (s : String) : Option ℚ :=
  parseSigned s.toList

/-! ### Row normalization (lines 91–94 of the source) -/

/-- A raw row restricted to the resolved description/total columns.
`none` in a field is a missing (`NaN`/`None`) cell, which `dropna` removes;
`some s` is a present cell with text `s` (possibly empty, which `dropna`
keeps). -/
structure RawRow where
  desc : Option String
  total : Option String
  deriving DecidableEq, Repr

/-- Normalize one raw row:
`all_raw[[desc_col, total_col]].dropna()` drops rows with a missing cell,
the total is currency-stripped and parsed, and
`dropna(subset=['total'])` drops rows whose total failed to parse. -/
def normalizeRow (r : RawRow) : Option (String × ℚ) :=
  match r.desc, r.total with
  | some d, some t => (parseNum (stripCurrency t)).map (fun v => (d, v))
  | _, _ => none

/-- Normalize a collection of raw rows into `(description, total)` pairs. -/
def normalize (rows : List RawRow) : List (String × ℚ) :=
  rows.filterMap normalizeRow

/-! ### Keyword categorization (lines 30–37 and 97–103 of the source) -/

/-- The `category_keywords` dict, in Python insertion order (which is the
iteration order of the categorization loop). -/
def category_keywords : List (String × List String) :=
  [("Roofing", ["shingle", "ridge", "flashing", "felt", "ice water"]),
   ("Electrical", ["wiring", "outlet", "panel", "fixture"]),
   ("Plumbing", ["pipe", "vent", "fixture", "drain"]),
   ("Drywall/Painting", ["drywall", "paint", "texture", "ceiling"]),
   ("Foundation/Concrete", ["footing", "pile", "rebar", "concrete"]),
   ("Other", [])]

/-- The six categories of the sidebar (`categories`, line 21). -/
def categories : List String :=
  ["Roofing", "Electrical", "Plumbing", "Drywall/Painting", "Foundation/Concrete", "Other"]

/-- Categorize one description: the loop at lines 98–103 starts from the
default `'Other'`, lower-cases the description, and takes the first category
one of whose keywords occurs in it (`break` on first hit; `"Other"` has no
keywords, so it never matches and only arises as the default). -/
def categorize (description : String) : String :=
  match category_keywords.find?
      (fun ck => ck.2.any (fun kw => strContains (lowerStr description) kw)) with
  | some ck => ck.1
  | none => "Other"

/-! ### Line items and delegation (lines 115–119 of the source) -/

/-- A fully-built line item row of `all_tasks` (description, numeric total,
category, and the `assigned_to` column added by the delegation loop). -/
structure Item where
  description : String
  total : ℚ
  category : String
  assigned_to : String
  deriving DecidableEq, Repr

/-- Delegate one item: `assigned_to` is initialized to `'Unassigned'`
(line 115) and overwritten with `rules[cat]` when `cat in rules`
(lines 116–119).  The `rules` dict is embedded as an `Option`-valued
lookup function. -/
def delegate (rules : String → Option String) (it : Item) : Item :=
  match rules it.category with
  | some c => { it with assigned_to := c }
  | none => { it with assigned_to := "Unassigned" }

/-! ### Aggregation (lines 125–129 and 136–145 of the source) -/

/-- `all_tasks['total'].sum()` (line 136). -/
def grand_total (items : List Item) : ℚ :=
  (items.map Item.total).sum

/-- `all_tasks[all_tasks['assigned_to'] != 'Unassigned']['total'].sum()`
(line 141). -/
def assigned_total (items : List Item) : ℚ :=
  ((items.filter (fun it => it.assigned_to ≠ "Unassigned")).map Item.total).sum

/-- `all_tasks[all_tasks['assigned_to'] == 'Unassigned']['total'].sum()`
(line 143). -/
def unassigned_total (items : List Item) : ℚ :=
  ((items.filter (fun it => it.assigned_to = "Unassigned")).map Item.total).sum

/-- `all_tasks[all_tasks['assigned_to'] == contractor]['total'].sum()`
(line 127): the total of the work assigned to one contractor. -/
def contractorTotal (items : List Item) (name : String) : ℚ :=
  ((items.filter (fun it => it.assigned_to = name)).map Item.total).sum

/-- The payments loop (lines 125–129): for each configured
`(contractor, payout fraction)` pair, payment = assigned total × fraction. -/
def payments (contractors : List (String × ℚ)) (items : List Item) :
    List (String × ℚ) :=
  contractors.map (fun cp => (cp.1, contractorTotal items cp.1 * cp.2))

/-- The `Categorized %` computation (line 145):
`len(all_tasks[all_tasks['category'] != 'Other']) / len(all_tasks) * 100`.
Python raises `ZeroDivisionError` when `len(all_tasks) == 0`; the bare
division has no guard, so the zero-item case is embedded as `none`
(the fault), and the non-empty case as the exact rational value that the
presentation layer then formats with `:.0f`. -/
def categorizedPct (items : List Item) : Option ℚ :=
  if items.length = 0 then none
  else
    some ((((items.filter (fun it => it.category ≠ "Other")).length : ℚ) /
      (items.length : ℚ)) * 100)

/-! ### Column resolution (lines 53 and 66–78 of the source) -/

/-- Header-name normalization (line 53):
`str.strip().str.lower().str.replace(' ', '_').str.replace('.', '')`
with literal (non-regex) replacement; both patterns are single characters,
so the replacements are a character map and a character filter. -/
def cleanCol (s : String) : String :=
  String.mk ((((trimChars s.toList).map Char.toLower).map
    (fun c => if c == ' ' then '_' else c)).filter (fun c => !(c == '.')))

/-- Longest common subsequence length over character lists, with an
explicit fuel argument (`fuel ≥ |l₁| + |l₂|` suffices) so that the
recursion is structural and evaluates inside the kernel. -/
def lcsFuel : Nat → List Char → List Char → Nat
  | 0, _, _ => 0
  | _ + 1, [], _ => 0
  | _ + 1, _ :: _, [] => 0
  | fuel + 1, a :: as, b :: bs =>
      if a = b then lcsFuel fuel as bs + 1
      else max (lcsFuel fuel (a :: as) bs) (lcsFuel fuel as (b :: bs))

/-- Longest common subsequence length of two character lists. -/
def lcs (l₁ l₂ : List Char) : Nat :=
  lcsFuel (l₁.length + l₂.length) l₁ l₂

/-- `fuzz.ratio` of the external fuzzy matcher on the 0–100 scale:
with the Levenshtein backend it is `round(100 * (lensum - dist) / lensum)`
where `dist` is the edit distance with substitution cost 2, which equals
`lensum - 2 * LCS`; so the score is `200 * LCS / lensum`, rounded to the
nearest integer (embedded with half rounding up; the resolver only
compares the score against the threshold 70). -/
def fuzzScore (s₁ s₂ : String) : Nat :=
  let l₁ := s₁.toList
  let l₂ := s₂.toList
  let lensum := l₁.length + l₂.length
  if lensum = 0 then 100
  else (200 * lcs l₁ l₂ + lensum / 2) / lensum

/-- The per-column criterion of the auto-mapping loop (lines 66–78), for one
role: fuzzy score against the canonical role name strictly above 70, OR some
synonym token occurring as a substring of the column name.  The score
function is a parameter so that the structural facts below hold for any
0–100 similarity, and the concrete `fuzzScore` instantiates it. -/
def matchesRole (score : String → String → Nat) (canon : String)
    (syns : List String) (col : String) : Bool :=
  (decide (70 < score col canon)) || syns.any (fun s => strContains col s)

/-- Resolve one role over the column list: the loop assigns
`role_col = col` for every matching column in order, so the last matching
column wins and `none` is returned when no column matches. -/
def resolveRole (score : String → String → Nat) (canon : String)
    (syns : List String) (cols : List String) : Option String :=
  cols.foldl (fun acc col => if matchesRole score canon syns col then some col else acc)
    none

/-! ### Theorems -/

/-- Every character of a string accepted by `parseUnsigned` is a digit or the
decimal point. -/
lemma parseUnsigned_chars {l : List Char} {q : ℚ} (h : parseUnsigned l = some q) :
    ∀ c ∈ l, c.isDigit = true ∨ c = '.' := by
  intro c hc
  rw [parseUnsigned] at h
  split at h
  · rename_i heq
    have hl : l.takeWhile Char.isDigit = l := by
      have hsplit := List.takeWhile_append_dropWhile Char.isDigit l
      rwa [heq, List.append_nil] at hsplit
    rw [← hl] at hc
    exact Or.inl (List.mem_takeWhile_imp hc)
  · rename_i frac heq
    split at h
    · rename_i hcond
      rw [Bool.and_eq_true] at hcond
      have hfrac := List.all_eq_true.mp hcond.1
      have hsplit := List.takeWhile_append_dropWhile Char.isDigit l
      rw [heq] at hsplit
      rw [← hsplit] at hc
      rcases List.mem_append.mp hc with hc1 | hc2
      · exact Or.inl (List.mem_takeWhile_imp hc1)
      · rcases List.mem_cons.mp hc2 with rfl | hc3
        · exact Or.inr rfl
        · exact Or.inl (hfrac c hc3)
    · exact absurd h (by simp)
  · exact absurd h (by simp)

/-- Every character of a string accepted by `parseNum` is a digit, the
decimal point, or a sign. -/
lemma parseNum_chars {s : String} {v : ℚ} (h : parseNum s = some v) :
    ∀ c ∈ s.toList, c.isDigit = true ∨ c = '.' ∨ c = '-' ∨ c = '+' := by
  intro c hc
  rw [parseNum] at h
  cases hl : s.toList with
  | nil => rw [hl] at hc; exact absurd hc (List.not_mem_nil c)
  | cons c0 rest =>
    rw [hl] at h hc
    rw [parseSigned] at h
    by_cases h0 : c0 = '-'
    · rw [if_pos h0] at h
      obtain ⟨q, hq, _⟩ := Option.map_eq_some'.mp h
      rcases List.mem_cons.mp hc with rfl | hcr
      · exact Or.inr (Or.inr (Or.inl h0))
      · rcases parseUnsigned_chars hq c hcr with h1 | h1
        · exact Or.inl h1
        · exact Or.inr (Or.inl h1)
    · rw [if_neg h0] at h
      by_cases h1 : c0 = '+'
      · rw [if_pos h1] at h
        rcases List.mem_cons.mp hc with rfl | hcr
        · exact Or.inr (Or.inr (Or.inr h1))
        · rcases parseUnsigned_chars h c hcr with h2 | h2
          · exact Or.inl h2
          · exact Or.inr (Or.inl h2)
      · rw [if_neg h1] at h
        rcases parseUnsigned_chars h c hc with h2 | h2
        · exact Or.inl h2
        · exact Or.inr (Or.inl h2)

/-- A string accepted by `parseNum` contains no `$` and no `,`, so
`stripCurrency` leaves it unchanged. -/
lemma stripCurrency_of_parses {s : String} {v : ℚ} (h : parseNum s = some v) :
    stripCurrency s = s := by
  unfold stripCurrency
  have hall : ∀ c ∈ s.toList, (!(c == '$' || c == ',')) = true := by
    intro c hc
    rcases parseNum_chars h c hc with h1 | h1 | h1 | h1
    · by_contra hne
      simp only [Bool.not_eq_true, Bool.not_eq_false'] at hne
      simp only [Bool.or_eq_true, beq_iff_eq] at hne
      rcases hne with he | he <;>
        · subst he
          exact absurd h1 (by decide)
    · subst h1; decide
    · subst h1; decide
    · subst h1; decide
  rw [List.filter_eq_self.mpr hall]
  cases s
  rfl

/-- C2: the categorizer lower-cases the description and tests the categories
in the fixed order Roofing, Electrical, Plumbing, Drywall/Painting,
Foundation/Concrete, assigning the first category one of whose keywords is a
substring of the lower-cased description; it assigns `"Other"` when no
keyword of any category matches; exactly one category (always one of the six)
is assigned per item; and `"Install asphalt shingle roof"` → Roofing,
`"Patch drywall ceiling"` → Drywall/Painting, `"Generic cleanup"` → Other. -/
theorem categorize_first_match :
    (∀ (d : String) (pre : List (String × List String)) (c : String)
        (kws : List String) (post : List (String × List String)),
        category_keywords = pre ++ (c, kws) :: post →
        kws.any (fun kw => strContains (lowerStr d) kw) = true →
        (∀ ck ∈ pre, ck.2.any (fun kw => strContains (lowerStr d) kw) = false) →
        categorize d = c)
    ∧ (∀ d : String,
        (∀ ck ∈ category_keywords, ∀ kw ∈ ck.2,
          strContains (lowerStr d) kw = false) →
        categorize d = "Other")
    ∧ (∀ d : String, categorize d ∈ categories)
    ∧ categorize "Install asphalt shingle roof" = "Roofing"
    ∧ categorize "Patch drywall ceiling" = "Drywall/Painting"
    ∧ categorize "Generic cleanup" = "Other" := by
  refine ⟨?_, ?_, ?_, by decide, by decide, by decide⟩
  · intro d pre c kws post hsplit hmatch hpre
    unfold categorize
    rw [hsplit, List.find?_append]
    have hnone : pre.find? (fun ck => ck.2.any (fun kw => strContains (lowerStr d) kw))
        = none := by
      rw [List.find?_eq_none]
      intro ck hck
      simp [hpre ck hck]
    rw [hnone]
    have hpos : ((c, kws) :: post).find?
        (fun ck => ck.2.any (fun kw => strContains (lowerStr d) kw)) = some (c, kws) :=
      List.find?_cons_of_pos post (by simpa using hmatch)
    rw [Option.none_or, hpos]
  · intro d h
    unfold categorize
    have hnone : category_keywords.find?
        (fun ck => ck.2.any (fun kw => strContains (lowerStr d) kw)) = none := by
      rw [List.find?_eq_none]
      intro ck hck hany
      rw [List.any_eq_true] at hany
      obtain ⟨kw, hkw, hc⟩ := hany
      rw [h ck hck kw hkw] at hc
      exact Bool.false_ne_true hc
    rw [hnone]
  · intro d
    unfold categorize
    cases hf : category_keywords.find?
        (fun ck => ck.2.any (fun kw => strContains (lowerStr d) kw)) with
    | none => decide
    | some ck =>
      have hm := List.mem_of_find?_eq_some hf
      simp only [category_keywords, List.mem_cons, List.not_mem_nil, or_false] at hm
      rcases hm with rfl | rfl | rfl | rfl | rfl | rfl <;> decide

/-- C2 witness: the first-match part of `categorize_first_match` applied at a
concrete description matched by the Roofing keyword `"ridge"`. -/
theorem categorize_first_match_witness :
    categorize "roof ridge job" = "Roofing" :=
  categorize_first_match.1 "roof ridge job" [] "Roofing"
    ["shingle", "ridge", "flashing", "felt", "ice water"]
    [("Electrical", ["wiring", "outlet", "panel", "fixture"]),
     ("Plumbing", ["pipe", "vent", "fixture", "drain"]),
     ("Drywall/Painting", ["drywall", "paint", "texture", "ceiling"]),
     ("Foundation/Concrete", ["footing", "pile", "rebar", "concrete"]),
     ("Other", [])] rfl (by decide) (by simp)

/-- C6: the delegator sets `assigned_to` to the contractor mapped from the
item's category when the category is present in the rule mapping, and to
`"Unassigned"` otherwise; the description, total and category fields are
unchanged.  The spec's two examples (a Roofing rule mapping to
`"Contractor 1"`, and a Plumbing item with no rule entry) are included. -/
theorem delegate_lookup :
    (∀ (rules : String → Option String) (it : Item) (c : String),
        rules it.category = some c →
        delegate rules it = { it with assigned_to := c })
    ∧ (∀ (rules : String → Option String) (it : Item),
        rules it.category = none →
        delegate rules it = { it with assigned_to := "Unassigned" })
    ∧ (∀ (rules : String → Option String) (it : Item),
        (delegate rules it).description = it.description ∧
        (delegate rules it).total = it.total ∧
        (delegate rules it).category = it.category)
    ∧ (delegate (fun c => if c = "Roofing" then some "Contractor 1" else none)
        { description := "d", total := 1, category := "Roofing",
          assigned_to := "x" }).assigned_to = "Contractor 1"
    ∧ (delegate (fun c => if c = "Roofing" then some "Contractor 1" else none)
        { description := "d", total := 1, category := "Plumbing",
          assigned_to := "x" }).assigned_to = "Unassigned" := by
  refine ⟨?_, ?_, ?_, rfl, rfl⟩
  · intro rules it c h
    unfold delegate
    rw [h]
  · intro rules it h
    unfold delegate
    rw [h]
  · intro rules it
    cases h : rules it.category <;> simp [delegate, h]

/-- C6 witness: `delegate_lookup` applied to a concrete rule mapping and a
concrete Roofing item. -/
theorem delegate_lookup_witness :
    delegate (fun c => if c = "Roofing" then some "C1" else none)
      { description := "r", total := 2, category := "Roofing", assigned_to := "z" } =
      { description := "r", total := 2, category := "Roofing", assigned_to := "C1" } :=
  delegate_lookup.1 _ _ "C1" (by simp)

/-- C7: `grand_total` is the sum of all totals, `assigned_total` the sum over
items with `assigned_to ≠ "Unassigned"`, `unassigned_total` the sum over items
with `assigned_to = "Unassigned"`; all three are `0` on the empty collection,
and on the spec's example `[(100, "A"), (50, "Unassigned")]` they are
`150`, `100`, `50`. -/
theorem totals_spec :
    grand_total [] = 0 ∧ assigned_total [] = 0 ∧ unassigned_total [] = 0
    ∧ (∀ items : List Item, grand_total items = (items.map Item.total).sum)
    ∧ (∀ items : List Item, assigned_total items =
        ((items.filter (fun it => it.assigned_to ≠ "Unassigned")).map Item.total).sum)
    ∧ (∀ items : List Item, unassigned_total items =
        ((items.filter (fun it => it.assigned_to = "Unassigned")).map Item.total).sum)
    ∧ grand_total
        [{ description := "i1", total := 100, category := "c", assigned_to := "A" },
         { description := "i2", total := 50, category := "c", assigned_to := "Unassigned" }] = 150
    ∧ assigned_total
        [{ description := "i1", total := 100, category := "c", assigned_to := "A" },
         { description := "i2", total := 50, category := "c", assigned_to := "Unassigned" }] = 100
    ∧ unassigned_total
        [{ description := "i1", total := 100, category := "c", assigned_to := "A" },
         { description := "i2", total := 50, category := "c", assigned_to := "Unassigned" }] = 50 := by
  refine ⟨rfl, rfl, rfl, fun _ => rfl, fun _ => rfl, fun _ => rfl, ?_, ?_, ?_⟩ <;>
    (simp +decide [grand_total, assigned_total, unassigned_total, List.filter]; try norm_num)

/-- C10: the assigned and unassigned sums partition the grand total:
`grand_total = assigned_total + unassigned_total`, because each item's
`assigned_to` either equals `"Unassigned"` or does not. -/
theorem grand_total_partition (items : List Item) :
    grand_total items = assigned_total items + unassigned_total items := by
  induction items with
  | nil => simp [grand_total, assigned_total, unassigned_total]
  | cons it tl ih =>
    by_cases h : it.assigned_to = "Unassigned" <;>
      simp [grand_total, assigned_total, unassigned_total, List.filter_cons, h] at ih ⊢ <;>
      linarith [ih]

/-- C8: for every configured contractor, the computed payment is the sum of
totals of items whose `assigned_to` equals that contractor's name, times the
contractor's payout fraction; a contractor with no assigned items is paid 0;
and a contractor with fraction `0.85` and assigned total `100` is paid `85`. -/
theorem payments_spec :
    (∀ (items : List Item) (contractors : List (String × ℚ)) (name : String) (pct : ℚ),
        (name, pct) ∈ contractors →
        (name, contractorTotal items name * pct) ∈ payments contractors items)
    ∧ (∀ (items : List Item) (name : String) (pct : ℚ),
        (∀ it ∈ items, it.assigned_to ≠ name) →
        contractorTotal items name * pct = 0)
    ∧ payments [("A", 85/100)]
        [{ description := "roof", total := 100, category := "Roofing",
           assigned_to := "A" }] = [("A", 85)] := by
  refine ⟨?_, ?_, ?_⟩
  · intro items contractors name pct hmem
    simp only [payments]
    exact List.mem_map_of_mem _ hmem
  · intro items name pct h
    have hnil : items.filter (fun it => it.assigned_to = name) = [] := by
      rw [List.filter_eq_nil_iff]
      intro it hit
      simp [h it hit]
    simp [contractorTotal, hnil]
  · simp [payments, contractorTotal]
    norm_num

/-- C8 witness: `payments_spec` applied to a concrete configuration and item
collection. -/
theorem payments_spec_witness :
    ("A", contractorTotal
        [{ description := "roof", total := 100, category := "Roofing",
           assigned_to := "A" }] "A" * (85/100 : ℚ)) ∈
      payments [("A", 85/100)]
        [{ description := "roof", total := 100, category := "Roofing",
           assigned_to := "A" }] :=
  payments_spec.1 _ [("A", 85/100)] "A" (85/100) (by simp)

/-- C1: the categorized-percentage computation has no zero-item guard: on the
empty collection the bare division `len(...)/len(all_tasks)` raises
`ZeroDivisionError` (embedded as `none`), contradicting the required
defined value; on every non-empty collection it equals
(count of items with category ≠ "Other") / (item count) × 100 (as an exact
rational, which the presentation layer then rounds for display). -/
theorem categorizedPct_zero_fault :
    categorizedPct [] = none
    ∧ ∀ items : List Item, items ≠ [] →
        categorizedPct items =
          some ((((items.filter (fun it => it.category ≠ "Other")).length : ℚ) /
            (items.length : ℚ)) * 100) := by
  refine ⟨rfl, ?_⟩
  intro items h
  unfold categorizedPct
  rw [if_neg (by simpa [List.length_eq_zero] using h)]

/-- C1 witness: `categorizedPct_zero_fault` applied to a concrete one-item
collection, where the computation yields 100%. -/
theorem categorizedPct_zero_fault_witness :
    categorizedPct
      [{ description := "a", total := 1, category := "Roofing",
         assigned_to := "A" }] = some 100 := by
  have h := categorizedPct_zero_fault.2
    [{ description := "a", total := 1, category := "Roofing", assigned_to := "A" }]
    (by simp)
  rw [h]
  simp +decide [List.filter]

/-- Evaluation of the spec's currency-parsing example. -/
lemma parse_example : parseNum "1234.50" = some (1234.5 : ℚ) := by
  rw [show parseNum "1234.50" =
    some ((parseDigits ['1', '2', '3', '4'] : ℚ) +
      (parseDigits ['5', '0'] : ℚ) / (10 : ℚ) ^ 2) from rfl]
  norm_num [show parseDigits ['1', '2', '3', '4'] = 1234 from rfl,
    show parseDigits ['5', '0'] = 50 from rfl]

/-- C3: the normalizer strips `$` and `,` from the total cell and parses the
result; a row with present cells is kept with the parsed value exactly when
parsing succeeds and silently dropped when parsing fails; `"$1,234.50"`
parses to `1234.50` and a row with total `"abc"` is dropped.  Dropping is a
per-row `filterMap`, so one bad row never aborts the others. -/
theorem normalize_parse_spec :
    stripCurrency "$1,234.50" = "1234.50"
    ∧ parseNum (stripCurrency "$1,234.50") = some (1234.5 : ℚ)
    ∧ normalize [{ desc := some "job", total := some "$1,234.50" }]
        = [("job", (1234.5 : ℚ))]
    ∧ normalize [{ desc := some "row", total := some "abc" }] = []
    ∧ (∀ (d t : String) (v : ℚ), parseNum (stripCurrency t) = some v →
        normalizeRow { desc := some d, total := some t } = some (d, v))
    ∧ (∀ d t : String, parseNum (stripCurrency t) = none →
        normalizeRow { desc := some d, total := some t } = none)
    ∧ (∀ rows : List RawRow, normalize rows = rows.filterMap normalizeRow) := by
  have hstrip : stripCurrency "$1,234.50" = "1234.50" := by decide
  have hp : parseNum (stripCurrency "$1,234.50") = some (1234.5 : ℚ) := by
    rw [hstrip]; exact parse_example
  refine ⟨hstrip, hp, ?_, by decide, ?_, ?_, fun _ => rfl⟩
  · show ((parseNum (stripCurrency "$1,234.50")).map
      (fun v => ("job", v))).toList = [("job", (1234.5 : ℚ))]
    rw [hp]
    rfl
  · intro d t v h
    show (parseNum (stripCurrency t)).map (fun v => (d, v)) = some (d, v)
    rw [h]
    rfl
  · intro d t h
    show (parseNum (stripCurrency t)).map (fun v => (d, v)) = none
    rw [h]
    rfl

/-- C3 witness: `normalize_parse_spec` applied to a concrete row whose total
parses. -/
theorem normalize_parse_spec_witness :
    normalizeRow { desc := some "a", total := some "7" } = some ("a", (7 : ℚ)) := by
  apply normalize_parse_spec.2.2.2.2.1 "a" "7" 7
  rw [show parseNum (stripCurrency "7") = some ((parseDigits ['7'] : ℚ)) from rfl]
  norm_num [show parseDigits ['7'] = 7 from rfl]

/-- C4 counterexample: a row whose description cell is present but empty is
NOT dropped — `dropna` removes only missing cells, so the row survives and
produces a line item with an empty description, contrary to the claim that a
row with an empty description cell yields no line item. -/
theorem normalize_keeps_empty_desc :
    normalize [{ desc := some "", total := some "5" }] = [("", (5 : ℚ))] := by
  have h5 : parseNum (stripCurrency "5") = some (5 : ℚ) := by
    rw [show parseNum (stripCurrency "5") = some ((parseDigits ['5'] : ℚ)) from rfl]
    norm_num [show parseDigits ['5'] = 5 from rfl]
  show ((parseNum (stripCurrency "5")).map (fun v => ("", v))).toList
      = [("", (5 : ℚ))]
  rw [h5]
  rfl

/-- C4 (amended): the normalizer drops a row exactly when its description or
total cell is missing, or its total cell fails numeric parsing after
currency-stripping (in particular an empty total cell is dropped); an
empty-but-present description cell does not cause a drop. -/
theorem normalizeRow_drop_iff :
    (∀ r : RawRow, normalizeRow r = none ↔
        r.desc = none ∨ r.total = none ∨
          ∃ t, r.total = some t ∧ parseNum (stripCurrency t) = none)
    ∧ (∀ d : Option String,
        normalizeRow { desc := d, total := some "" } = none) := by
  constructor
  · intro r
    rcases r with ⟨d, t⟩
    rcases d with _ | ds <;> rcases t with _ | ts <;>
      simp [normalizeRow, Option.map_eq_none']
  · intro d
    rcases d with _ | ds <;>
      simp [normalizeRow, show parseNum (stripCurrency "") = none from by decide]

/-- C5: strip-and-parse normalization is idempotent.  A total that has
already been normalized is a plain numeral when presented as text again, i.e.
a string accepted by `parseNum`; on such a string the currency-stripping pass
changes nothing and re-parsing returns the same value, and over a whole list
of already-normalized totals the re-run reproduces the same values. -/
theorem normalization_idempotent :
    (∀ (s : String) (v : ℚ), parseNum s = some v →
        stripCurrency s = s ∧ parseNum (stripCurrency s) = some v)
    ∧ (∀ totals : List String, (∀ s ∈ totals, (parseNum s).isSome = true) →
        totals.map (fun s => parseNum (stripCurrency s)) = totals.map parseNum) := by
  refine ⟨fun s v h => ⟨stripCurrency_of_parses h, by rw [stripCurrency_of_parses h]; exact h⟩, ?_⟩
  intro totals h
  apply List.map_congr_left
  intro s hs
  obtain ⟨v, hv⟩ := Option.isSome_iff_exists.mp (h s hs)
  rw [stripCurrency_of_parses hv]

/-- C5 witness: `normalization_idempotent` applied to the already-normalized
total `"1234.50"`. -/
theorem normalization_idempotent_witness :
    stripCurrency "1234.50" = "1234.50"
    ∧ parseNum (stripCurrency "1234.50") = some (1234.5 : ℚ) :=
  normalization_idempotent.1 "1234.50" 1234.5 parse_example

/-- The last-match-wins fold of the column-mapping loop only ever holds a
matching column, provided the initial accumulator does. -/
lemma foldl_resolve_property (m : String → Bool) (cols : List String) :
    ∀ acc : Option String,
      (∀ c, acc = some c → m c = true) →
      ∀ c, cols.foldl (fun a col => if m col then some col else a) acc = some c →
        m c = true := by
  induction cols with
  | nil => intro acc hacc c h; exact hacc c h
  | cons col cols ih =>
    intro acc hacc c h
    rw [List.foldl_cons] at h
    by_cases hm : m col = true
    · rw [if_pos hm] at h
      exact ih (some col) (fun c' hc' => Option.some.inj hc' ▸ hm) c h
    · rw [if_neg hm] at h
      exact ih acc hacc c h

/-- The last-match-wins fold of the column-mapping loop resolves the role
whenever the accumulator is already set or some column matches. -/
lemma foldl_resolve_isSome (m : String → Bool) (cols : List String) :
    ∀ acc : Option String,
      (acc.isSome = true ∨ ∃ col ∈ cols, m col = true) →
      (cols.foldl (fun a col => if m col then some col else a) acc).isSome = true := by
  induction cols with
  | nil =>
    intro acc h
    rcases h with h | ⟨col, hmem, _⟩
    · exact h
    · exact absurd hmem (List.not_mem_nil col)
  | cons col cols ih =>
    intro acc h
    rw [List.foldl_cons]
    by_cases hm : m col = true
    · exact ih _ (Or.inl (by rw [if_pos hm]; rfl))
    · apply ih
      rcases h with h | ⟨col', hmem, hmcol⟩
      · exact Or.inl (by rwa [if_neg hm])
      · rcases List.mem_cons.mp hmem with rfl | hmem'
        · exact absurd hmcol hm
        · rw [if_neg hm]
          exact Or.inr ⟨col', hmem', hmcol⟩

/-- C9: the column resolver resolves a role whenever some column's normalized
name has fuzzy score strictly above 70 against the canonical role name or
contains a known synonym token, and the column it selects itself satisfies
that criterion; the column named `"Total Price"` normalizes to
`"total_price"` and is selected for the total role via the substring
`"price"` (its fuzzy score against `"total"` is below the threshold), and the
column named `"Qty"` normalizes to `"qty"` and is selected for the quantity
role. -/
theorem resolveRole_spec :
    (∀ (score : String → String → Nat) (canon : String) (syns : List String)
        (cols : List String) (col : String),
        col ∈ cols → matchesRole score canon syns col = true →
        ∃ sel, resolveRole score canon syns cols = some sel ∧
          matchesRole score canon syns sel = true)
    ∧ cleanCol "Total Price" = "total_price"
    ∧ strContains "total_price" "price" = true
    ∧ fuzzScore "total_price" "total" ≤ 70
    ∧ resolveRole fuzzScore "total" ["price", "rcv"] [cleanCol "Total Price"]
        = some "total_price"
    ∧ cleanCol "Qty" = "qty"
    ∧ resolveRole fuzzScore "quantity" ["qty"] [cleanCol "Qty"] = some "qty" := by
  refine ⟨?_, by decide, by decide, by decide, by decide, by decide, by decide⟩
  intro score canon syns cols col hmem hmatch
  have hsome := foldl_resolve_isSome (matchesRole score canon syns) cols none
    (Or.inr ⟨col, hmem, hmatch⟩)
  obtain ⟨sel, hsel⟩ := Option.isSome_iff_exists.mp hsome
  exact ⟨sel, hsel, foldl_resolve_property _ cols none (by simp) sel hsel⟩

/-- C9 witness: `resolveRole_spec` applied to a concrete column list in which
`"total_price"` matches the total role. -/
theorem resolveRole_spec_witness :
    ∃ sel, resolveRole fuzzScore "total" ["price", "rcv"]
        ["description", "total_price"] = some sel
      ∧ matchesRole fuzzScore "total" ["price", "rcv"] sel = true :=
  resolveRole_spec.1 fuzzScore "total" ["price", "rcv"]
    ["description", "total_price"] "total_price" (by simp) (by decide)

end InsuranceApp
